import Mathlib

/-!
Verification of the eco-counter-import pipeline (src/main.rs).

The Rust program reads a wide CSV export of bicycle/pedestrian counters,
validates the header, decodes each data row into per-station
`IndividualCount` records, aggregates them into per-(location, date)
`AggregatedCount` rollups, and loads both into an Oracle sink in a
delete-phase / individual-insert-phase / aggregated-insert-phase order.

This file is a shallow embedding of that program: structures and functions
mirror the Rust definitions; `i32` values are modelled as `Int`; Rust
`Option<i32>` as `Option Int`; fallible constructors return `Except`.
The external parsers (chrono timestamp parsing, `str::parse::<i32>`) are
third-party library code and are passed as explicit function parameters.
-/

/-- Calendar date, standing in for chrono NaiveDate. -/
structure NaiveDate where
  year : Int
  month : Nat
  day : Nat
deriving DecidableEq, Repr

/-- Timestamp, standing in for chrono NaiveDateTime; the pipeline only
uses its truncation to a date (the `date()` method) and equality. -/
structure NaiveDateTime where
  date : NaiveDate
  hour : Nat
  minute : Nat
deriving DecidableEq, Repr

/-- One timestamped reading for one station (struct IndividualCount,
main.rs lines 20-29). -/
structure IndividualCount where
  location_id : Int
  datetime : NaiveDateTime
  total : Option Int
  ped_in : Option Int
  ped_out : Option Int
  bike_in : Option Int
  bike_out : Option Int
deriving DecidableEq, Repr

/-- Structural errors from IndividualCount::new (enum CountError,
main.rs lines 83-88). -/
inductive CountError where
  | TooFew
  | TooMany
  | UnexpectedNumber
deriving DecidableEq, Repr

/-- IndividualCount::new (main.rs lines 32-79).  `counts` is a slice from
the whole row, starting with total (index 0) and followed by either a ped
or bike pair (in/out) or both.  The Rust code branches on
`counts.len() == 5` / `counts.len() == 3` and then indexes; here the two
length tests are realised as list patterns. -/
def IndividualCount.new (location_id : Int) (datetime : NaiveDateTime)
    (counts : List (Option Int)) (ped : Bool) (bike : Bool) :
    Except CountError IndividualCount :=
  match counts with
  | [c0, c1, c2, c3, c4] =>
    if !bike && !ped then
      .error .TooMany
    else
      .ok ⟨location_id, datetime, c0, c1, c2, c3, c4⟩
  | [c0, c1, c2] =>
    if bike && ped then
      .error .TooFew
    else if ped && !bike then
      .ok ⟨location_id, datetime, c0, c1, c2, none, none⟩
    else if !ped && bike then
      .ok ⟨location_id, datetime, c0, none, none, c1, c2⟩
    else
      .ok ⟨location_id, datetime, c0, none, none, none, none⟩
  | _ => .error .UnexpectedNumber

/-- One daily rollup per station (struct AggregatedCount,
main.rs lines 106-113). -/
structure AggregatedCount where
  location_id : Int
  date : NaiveDate
  total_ped : Option Int
  total_bike : Option Int
  total : Option Int
deriving DecidableEq, Repr

/-- AggregatedCount::new (main.rs lines 115-131). -/
def AggregatedCount.new (location_id : Int) (date : NaiveDate)
    (total_ped : Option Int) (total_bike : Option Int) (total : Option Int) :
    AggregatedCount :=
  ⟨location_id, date, total_ped, total_bike, total⟩

/-- The running-sum update the aggregation loop applies to each of the
three per-(location, date) accumulators (main.rs lines 616-622, 638-644,
653-659): a present addend is added to a present accumulator, seeds an
absent accumulator, and an absent addend leaves the accumulator unchanged. -/
def nullableAdd (running : Option Int) (addend : Option Int) : Option Int :=
  match addend with
  | some v =>
    match running with
    | some w => some (w + v)
    | none => some v
  | none => running

/-- The ped in/out pairing of the aggregation loop (main.rs lines
603-614): start from absent, take ped_in if present, then fold ped_out in
with the same present/absent case split. -/
def pedTotal (c : IndividualCount) : Option Int :=
  let t : Option Int := none
  let t : Option Int :=
    match c.ped_in with
    | some v => some v
    | none => t
  match c.ped_out with
  | some v =>
    match t with
    | some w => some (w + v)
    | none => some v
  | none => t

/-- The bike in/out pairing of the aggregation loop (main.rs lines
625-636), identical in shape to `pedTotal`. -/
def bikeTotal (c : IndividualCount) : Option Int :=
  let t : Option Int := none
  let t : Option Int :=
    match c.bike_in with
    | some v => some v
    | none => t
  match c.bike_out with
  | some v =>
    match t with
    | some w => some (w + v)
    | none => some v
  | none => t

/-- The grouping key of the aggregation HashMap:
`(count.location_id, count.datetime.date())` (main.rs lines 595-599). -/
def countKey (c : IndividualCount) : Int × NaiveDate :=
  (c.location_id, c.datetime.date)

/-- One step of the aggregation loop body (main.rs lines 594-660): look up
the entry for the key of the count (defaulting to `(None, None, None)`, as
`or_insert` does), then fold the ped pair, bike pair and verbatim
total into the three running sums.  The HashMap is modelled as a total
function whose default value is the `or_insert` initialiser. -/
def aggStep (m : Int × NaiveDate → Option Int × Option Int × Option Int)
    (c : IndividualCount) :
    Int × NaiveDate → Option Int × Option Int × Option Int :=
  fun k =>
    if k = countKey c then
      (nullableAdd (m (countKey c)).1 (pedTotal c),
       nullableAdd (m (countKey c)).2.1 (bikeTotal c),
       nullableAdd (m (countKey c)).2.2 c.total)
    else m k

/-- The whole aggregation loop: fold `aggStep` over all decoded counts,
starting from the empty map (main.rs lines 592-660). -/
def dailyCounts (cs : List IndividualCount) :
    Int × NaiveDate → Option Int × Option Int × Option Int :=
  cs.foldl aggStep (fun _ => (none, none, none))

/-- Absent-absorbing sum of a list of optional values: the result of
feeding them one by one through the running-sum update, starting absent. -/
def nullableSum (l : List (Option Int)) : Option Int :=
  l.foldl nullableAdd none

/-- The distinct keys present in the aggregation HashMap: exactly the keys
of the processed counts (order irrelevant to downstream consumers). -/
def aggKeys (cs : List IndividualCount) : List (Int × NaiveDate) :=
  (cs.map countKey).dedup

/-- The flattening of the aggregation HashMap into a vector of
AggregatedCount (main.rs lines 662-672). -/
def flattenedDailyCounts (cs : List IndividualCount) : List AggregatedCount :=
  (aggKeys cs).map fun k =>
    AggregatedCount.new k.1 k.2 (dailyCounts cs k).1 (dailyCounts cs k).2.1
      (dailyCounts cs k).2.2

/-- The records of `cs` belonging to one (location, date) group. -/
def dayRecords (cs : List IndividualCount) (loc : Int) (day : NaiveDate) :
    List IndividualCount :=
  cs.filter fun c => decide (countKey c = (loc, day))

/-- NUM_THREADS (main.rs line 135): worker-pool size and max pool connections. -/
def NUM_THREADS : Nat := 10

/-- EXPECTED_HEADER (main.rs lines 137-236): the fixed 98-field header the
declared header row of every input file must equal.  Apostrophes appear
as \x27 escapes; the strings are otherwise verbatim from the source. -/
def EXPECTED_HEADER : List String := [
  "Time",
  "Bartram\x27s Garden",
  "Bartram\x27s Garden Pedestrians NB - Bartram\x27s Garden",
  "Bartram\x27s Garden Pedestrians SB - Bartram\x27s Garden",
  "Bartram\x27s Garden Cyclists NB - Bartram\x27s Garden",
  "Bartram\x27s Garden Cyclists SB - Bartram\x27s Garden",
  "Chester Valley Trail - East Whiteland Twp",
  "Chester Valley Trail - East Whiteland Twp CVT - EB - Pedestrian",
  "Chester Valley Trail - East Whiteland Twp CVT - WB - Pedestrian",
  "Chester Valley Trail - East Whiteland Twp CVT - EB - Bicycle",
  "Chester Valley Trail - East Whiteland Twp CVT - WB - Bicycle",
  "Cooper River Trail",
  "Cooper River Trail - EB Pedestrian",
  "Cooper River Trail - WB Pedestrian",
  "Cooper River Trail - EB Bicycle",
  "Cooper River Trail - WB Bicycle",
  "Cynwyd Heritage Trail",
  "Cynwyd Heritage Trail Pedestrian IN",
  "Cynwyd Heritage Trail Pedestrian OUT",
  "Cynwyd Heritage Trail CHT - WB - Bicycle",
  "Cynwyd Heritage Trail CHT - EB - Bicycle",
  "Darby Creek Trail",
  "Darby Creek Trail - Pedestrians - SB",
  "Darby Creek Trail - Pedestrians - NB",
  "Darby Creek Trail - Bicycle - SB",
  "Darby Creek Trail - Bicycle - NB",
  "Kelly Dr - Schuylkill River Trail",
  "Kelly Dr - Schuylkill River Trail Kelly Drive - Pedestrians - NB",
  "Kelly Dr - Schuylkill River Trail Kelly Drive - Pedestrians - SB",
  "Kelly Dr - Schuylkill River Trail Kelly Drive - Bicycle - NB",
  "Kelly Dr - Schuylkill River Trail Kelly Drive - Bicycle - SB",
  "Lawrence - Hopewell Trail",
  "Lawrence - Hopewell Trail LHT - Pedestrian - NB",
  "Lawrence - Hopewell Trail LHT - Pedestrian - SB",
  "Lawrence - Hopewell Trail LHT - Bicycle - NB",
  "Lawrence - Hopewell Trail LHT - Bicycle - SB",
  "Monroe Twp",
  "Monroe Twp Pedestrian IN",
  "Monroe Twp Pedestrian OUT",
  "Monroe Twp Monroe - Bicycle - EB",
  "Monroe Twp Monroe - Bicycle - WB",
  "Pawlings Rd - Schuylkill River Trail",
  "Pawlings Rd - Schuylkill River Trail Pawlings Rd - WB Pedestrian",
  "Pawlings Rd - Schuylkill River Trail Pawlings Rd - EB Pedestrian",
  "Pawlings Rd - Schuylkill River Trail Pawlings Rd - WB - Bicycle",
  "Pawlings Rd - Schuylkill River Trail Pawlings Rd - EB - Bicycle",
  "Pine St",
  "Pine St Pedestrian IN",
  "Pine St Pedestrian OUT",
  "Port Richmond",
  "Port Richmond - WB - Pedestrian",
  "Port Richmond - EB - Pedestrian",
  "Port Richmond - WB - Bicycle",
  "Port Richmond - EB - Bicycle",
  "Schuylkill Banks",
  "Schuylkill Banks - Pedestrian - NB",
  "Schuylkill Banks - Pedestrian - SB",
  "Schuylkill Banks - Bicycle - NB",
  "Schuylkill Banks - Bicycle - SB",
  "Spring Mill Station",
  "Spring Mill Station Pedestrians EB - To Philadelphia",
  "Spring Mill Station Pedestrians WB - To Conshohocken",
  "Spring Mill Station Cyclists EB - To Philadelphia",
  "Spring Mill Station Cyclists WB - To Conshohocken",
  "Spruce St",
  "Spruce St Pedestrian IN",
  "Spruce St Pedestrian OUT",
  "Tinicum Park - D&L Trail",
  "Tinicum Park - D&L Trail Hugh Moore Park - D&L Trail Pedestrians Wilkes-Barre (Bethlehem)",
  "Tinicum Park - D&L Trail Pedestrians Bristol (New Hope)",
  "Tinicum Park - D&L Trail Hugh Moore Park - D&L Trail Cyclists Wilkes-Barre (Bethlehem)",
  "Tinicum Park - D&L Trail Cyclists Bristol (New Hope)",
  "Tullytown",
  "Tullytown Pedestrians NB - Towards Trenton - IN",
  "Tullytown Pedestrians SB - Towards Tullytown - OUT",
  "Tullytown Cyclists NB - Towards Trenton - IN",
  "Tullytown Cyclists SB - Towards Tullytown - OUT",
  "US 202 Parkway Trail",
  "US 202 Parkway Trail US 202 Parkway - SB - Pedestrian",
  "US 202 Parkway Trail US 202 Parkway - NB - Pedestrian",
  "US 202 Parkway Trail US 202 Parkway - SB - Bicycle",
  "US 202 Parkway Trail US 202 Parkway - NB - Bicycle",
  "Washington Crossing",
  "Washington Crossing Pedestrians NB - To New Hope - IN",
  "Washington Crossing Pedestrians SB - To Yardley - OUT",
  "Washington Crossing Cyclists NB - To New Hope - IN",
  "Washington Crossing Cyclists SB - To Yardley - OUT",
  "Waterfront Display",
  "Waterfront Display Pedestrian IN",
  "Waterfront Display Pedestrian OUT",
  "Waterfront Display Cyclist IN",
  "Waterfront Display Cyclist OUT",
  "Wissahickon Trail",
  "Wissahickon Trail - Pedestrians - SB",
  "Wissahickon Trail - Pedestrians - NB",
  "Wissahickon Trail - Bicycles - SB",
  "Wissahickon Trail - Bicycles - NB",
  ""
]

/-- One entry of the station layout: location id, the start column of its
slice in the row, the slice width, and the two capability flags passed to
IndividualCount::new.  The Rust code inlines this table as twenty literal
`IndividualCount::new(id, datetime, &counts[start..=end], ped, bike)`
calls (main.rs lines 388-588). -/
structure LayoutEntry where
  locationId : Int
  start : Nat
  span : Nat
  ped : Bool
  bike : Bool
deriving DecidableEq, Repr

/-- The station layout table, transcribed from the twenty
IndividualCount::new calls of main.rs lines 388-588, in source order:
`&counts[a..=b]` becomes start `a`, span `b - a + 1`. -/
def stationLayout : List LayoutEntry := [
  ⟨16, 1, 5, true, true⟩,   -- Bartram, counts[1..=5]
  ⟨1, 6, 5, true, true⟩,    -- Chester Valley Trail, counts[6..=10]
  ⟨11, 11, 5, true, true⟩,  -- Cooper River Trail, counts[11..=15]
  ⟨3, 16, 5, true, true⟩,   -- Cynwyd Heritage Trail, counts[16..=20]
  ⟨12, 21, 5, true, true⟩,  -- Darby Creek Trail, counts[21..=25]
  ⟨5, 26, 5, true, true⟩,   -- Kelly Dr, counts[26..=30]
  ⟨8, 31, 5, true, true⟩,   -- Lawrence Hopewell trail, counts[31..=35]
  ⟨10, 36, 5, true, true⟩,  -- Monroe Twp, counts[36..=40]
  ⟨2, 41, 5, true, true⟩,   -- Pawlings Rd, counts[41..=45]
  ⟨24, 46, 3, false, true⟩, -- Pine Street, counts[46..=48]
  ⟨7, 49, 5, true, true⟩,   -- Port Richmond, counts[49..=53]
  ⟨6, 54, 5, true, true⟩,   -- Schuylkill Banks, counts[54..=58]
  ⟨13, 59, 5, true, true⟩,  -- Spring Mill Station, counts[59..=63]
  ⟨25, 64, 3, false, true⟩, -- Spruce St, counts[64..=66]
  ⟨23, 67, 5, true, true⟩,  -- Tinicum Park, counts[67..=71]
  ⟨14, 72, 5, true, true⟩,  -- Tullytown, counts[72..=76]
  ⟨9, 77, 5, true, true⟩,   -- US 202 Parkway Trail, counts[77..=81]
  ⟨15, 82, 5, true, true⟩,  -- Washington Cross, counts[82..=86]
  ⟨26, 87, 5, true, true⟩,  -- Waterfront Display, counts[87..=91]
  ⟨4, 92, 5, true, true⟩    -- Wissahickon Trail, counts[92..=96]
]

/-- Rust slice `&l[start..start + len]`: defined (as `some`) exactly when
the range is in bounds; an out-of-range slice is `none`, modelling the
panic Rust would raise. -/
def sliceRange (l : List (Option Int)) (start len : Nat) :
    Option (List (Option Int)) :=
  if start + len ≤ l.length then some ((l.drop start).take len) else none

/-- Errors a data row can produce during decoding: a wrong field count
(checked before any count is created, main.rs lines 379-387), a layout
error from IndividualCount::new, or an out-of-bounds slice (the panic the
field-count check exists to prevent, per the comment at main.rs 376-378). -/
inductive RowError where
  | lengthMismatch (found : Nat)
  | layout (e : CountError)
  | outOfBounds
deriving DecidableEq, Repr

/-- Decode the slices of one row for a list of layout entries, in order;
the first failure aborts (each `match ... Err` arm in the Rust loop does
`continue mainloop` in the source). -/
def decodeEntries (es : List LayoutEntry) (datetime : NaiveDateTime)
    (counts : List (Option Int)) : Except RowError (List IndividualCount) :=
  match es with
  | [] => .ok []
  | e :: rest =>
    match sliceRange counts e.start e.span with
    | none => .error .outOfBounds
    | some s =>
      match IndividualCount.new e.locationId datetime s e.ped e.bike with
      | .error ce => .error (.layout ce)
      | .ok c =>
        match decodeEntries rest datetime counts with
        | .error err => .error err
        | .ok cs => .ok (c :: cs)

/-- Decode one data row (main.rs lines 379-589): first the guard
`counts.len() != EXPECTED_HEADER.len()` aborts the row, then the twenty
per-station IndividualCount::new calls run in order. -/
def decodeRow (datetime : NaiveDateTime) (counts : List (Option Int)) :
    Except RowError (List IndividualCount) :=
  if counts.length = EXPECTED_HEADER.length then
    decodeEntries stationLayout datetime counts
  else
    .error (.lengthMismatch counts.length)

/-- The union of all columns read by the station slices, in slice order. -/
def coveredColumns : List Nat :=
  stationLayout.flatMap fun e => List.range' e.start e.span

/-- Errors that abort one run of the import before the load phase. -/
inductive RunError where
  | headerNotFound
  | headerMismatch
  | timestampParseError
  | rowError (e : RowError)
deriving DecidableEq, Repr

/-- What one run hands to the load coordinator: the deduplicated dates of
the rows of the file, all decoded individual counts, and the flattened daily
aggregates. -/
structure RunData where
  distinctDates : List NaiveDate
  allCounts : List IndividualCount
  flattenedDaily : List AggregatedCount
deriving DecidableEq, Repr

/-- The per-row extraction loop (main.rs lines 347-589): for each data row,
parse the timestamp from field 0 (chrono `parse_from_str`, passed in as
`parseTs`), push the date of the row, parse every field as an optional integer
(`v.parse::<i32>().ok()`, passed in as `parseNum`), and decode the row into
twenty counts.  Any failure aborts the whole run. -/
def processRows (parseTs : String → Option NaiveDateTime)
    (parseNum : String → Option Int) :
    List (List String) → Except RunError (List NaiveDate × List IndividualCount)
  | [] => .ok ([], [])
  | row :: rest =>
    match parseTs (row.headD "") with
    | none => .error .timestampParseError
    | some datetime =>
      match decodeRow datetime (row.map parseNum) with
      | .error e => .error (.rowError e)
      | .ok rowCounts =>
        match processRows parseTs parseNum rest with
        | .error e => .error e
        | .ok (dates, cs) => .ok (datetime.date :: dates, rowCounts ++ cs)

/-- One run of the import pipeline up to the load phase (main.rs lines
307-675): record 0 is a skipped metadata line, record 1 is the declared
header, compared field-for-field against EXPECTED_HEADER before any data
row is examined; the remaining records are data rows.  The Rust code
sorts and dedups the formatted date strings; the model dedups the dates
themselves, which has the same distinct-date set. -/
def processFile (parseTs : String → Option NaiveDateTime)
    (parseNum : String → Option Int) (rows : List (List String)) :
    Except RunError RunData :=
  match rows[1]? with
  | none => .error .headerNotFound
  | some header =>
    if header = EXPECTED_HEADER then
      match processRows parseTs parseNum (rows.drop 2) with
      | .error e => .error e
      | .ok (dates, cs) => .ok ⟨dates.dedup, cs, flattenedDailyCounts cs⟩
    else .error .headerMismatch

/-- The calls a run issues against the Oracle sink, abstracted from the
SQL in main.rs lines 720-745, 917-944 and 946-970. -/
inductive SinkCall where
  | deleteCountData (date : NaiveDate)
  | deleteHeader (date : NaiveDate)
  | insertIndividual (c : IndividualCount)
  | insertAggregated (c : AggregatedCount)
  | commit
deriving DecidableEq, Repr

/-- The sink calls of the delete phase (main.rs lines 706-751): for each
distinct date, a worker deletes from TBLCOUNTDATA, deletes from TBLHEADER,
and commits. -/
def deletePhaseCalls (dates : List NaiveDate) : List SinkCall :=
  dates.flatMap fun d => [.deleteCountData d, .deleteHeader d, .commit]

/-- The sink calls of the individual-insert phase (main.rs lines 773-816):
one insert per count, plus one commit per worker after its queue drains. -/
def indPhaseCalls (cs : List IndividualCount) : List SinkCall :=
  cs.map SinkCall.insertIndividual ++ List.replicate NUM_THREADS .commit

/-- The sink calls of the aggregated-insert phase (main.rs lines 838-881):
one insert per aggregate, plus one commit per worker. -/
def aggPhaseCalls (cs : List AggregatedCount) : List SinkCall :=
  cs.map SinkCall.insertAggregated ++ List.replicate NUM_THREADS .commit

/-- The possible sink-call traces of the load coordinator on the data
of one run.  The main thread joins every delete worker before spawning any
insert worker, and every individual-insert worker before spawning any
aggregated-insert worker (main.rs lines 753-771, 818-836, 883-901), so a
trace is phase-by-phase: some interleaving (modelled as any permutation)
of the delete-phase calls, then of the individual-insert calls, then of
the aggregated-insert calls; a proper prefix models a run aborted by a
worker failure mid-phase. -/
def RunTrace (rd : RunData) (tr : List SinkCall) : Prop :=
  ∃ d i a rest,
    d.Perm (deletePhaseCalls rd.distinctDates) ∧
    i.Perm (indPhaseCalls rd.allCounts) ∧
    a.Perm (aggPhaseCalls rd.flattenedDaily) ∧
    tr ++ rest = d ++ i ++ a

/-- Where one iteration of the main loop stops (main.rs lines 292-914):
no file yet; an abort before the load phase (parse or header failure, or
failure to build the connection pool, lines 677-688); a main-thread
panic while checking a connection out of the pool during worker spawning
(`pool.get().unwrap()`, lines 714, 797 and 862), which terminates the
process mid-run; or running the load phase to completion. -/
inductive IterStep where
  | skippedNoFile
  | abortedBeforeLoad (e : RunError)
  | poolFailure
  | checkoutPanic (rd : RunData)
  | loadPhase (rd : RunData)
deriving DecidableEq, Repr

/-- One iteration of the main loop (main.rs lines 292-914), up to the
choice of load-phase traces: open the file (or skip), run the pipeline,
build the connection pool (or abort the run and keep polling, lines
683-687), then spawn the phase workers — each spawn checks a connection
out of the pool with `pool.get().unwrap()`, so a checkout failure panics
the main thread — and load. -/
def runIteration (fileFound : Bool) (poolBuildOk : Bool) (checkoutOk : Bool)
    (parseTs : String → Option NaiveDateTime)
    (parseNum : String → Option Int) (rows : List (List String)) : IterStep :=
  if fileFound then
    match processFile parseTs parseNum rows with
    | .error e => .abortedBeforeLoad e
    | .ok rd =>
      if poolBuildOk then
        if checkoutOk then .loadPhase rd else .checkoutPanic rd
      else .poolFailure
  else .skippedNoFile

/-- Whether an iteration outcome exits the process.  Every match arm of
the loop body ends in `continue mainloop` or falls through to the sleep
at the bottom of the loop — lines 292-914 contain no break or return —
with one exception: `pool.get().unwrap()` runs on the main thread (lines
714, 797, 862), so a connection-checkout failure there panics the main
thread and terminates the process.  Worker-thread panics, by contrast,
are caught at join (lines 753-771, 818-836, 883-901) and continue. -/
def iterExits : IterStep → Bool
  | .skippedNoFile => false
  | .abortedBeforeLoad _ => false
  | .poolFailure => false
  | .checkoutPanic _ => true
  | .loadPhase _ => false

/-- Whether startup returns before entering the main loop, as a function
of the USERNAME and PASSWORD environment variables (main.rs lines
277-290): a missing variable logs an error and returns. -/
def startupReturnsEarly (username password : Option String) : Bool :=
  match username with
  | none => true
  | some _ =>
    match password with
    | none => true
    | some _ => false

/-- The sink-call traces an iteration outcome can produce: nothing unless
the load phase is reached (the pool is built after aggregation and before
any sink call, main.rs lines 677-688).  A checkout panic can strike while
earlier-spawned workers of the current or a previous phase have already
issued calls, so it admits the same prefix-closed phase traces as a
completed load. -/
def possibleTrace : IterStep → List SinkCall → Prop
  | .skippedNoFile, tr => tr = []
  | .abortedBeforeLoad _, tr => tr = []
  | .poolFailure, tr => tr = []
  | .checkoutPanic rd, tr => RunTrace rd tr
  | .loadPhase rd, tr => RunTrace rd tr

/-- Whether a sink call is a delete. -/
def isDeleteCall : SinkCall → Bool
  | .deleteCountData _ => true
  | .deleteHeader _ => true
  | _ => false

/-- Whether a sink call is an insert (individual or aggregated). -/
def isInsertCall : SinkCall → Bool
  | .insertIndividual _ => true
  | .insertAggregated _ => true
  | _ => false

/-- Whether a sink call is an individual insert. -/
def isIndInsert : SinkCall → Bool
  | .insertIndividual _ => true
  | _ => false

/-- Whether a sink call is an aggregated insert. -/
def isAggInsert : SinkCall → Bool
  | .insertAggregated _ => true
  | _ => false

/-- Sample values used by the concrete witness theorems. -/
def sampleDate : NaiveDate := ⟨2023, 5, 6⟩

/-- Sample timestamp "May 6, 2023 12:30 PM". -/
def sampleDT : NaiveDateTime := ⟨sampleDate, 12, 30⟩

/-- Sample station-A reading of the end-to-end example in the spec. -/
def sampleCount : IndividualCount :=
  ⟨16, sampleDT, some 10, some 3, some 2, some 4, some 1⟩

/-- A second reading of the same location and day. -/
def sampleCount2 : IndividualCount :=
  ⟨16, ⟨sampleDate, 12, 45⟩, some 15, some 1, some 1, none, none⟩

/-- The ped pairing is the running-sum update applied to the in/out pair. -/
theorem pedTotal_eq_nullableAdd (c : IndividualCount) :
    pedTotal c = nullableAdd c.ped_in c.ped_out := by
  cases h1 : c.ped_in <;> cases h2 : c.ped_out <;>
    simp [pedTotal, nullableAdd, h1, h2]

/-- The bike pairing is the running-sum update applied to the in/out pair. -/
theorem bikeTotal_eq_nullableAdd (c : IndividualCount) :
    bikeTotal c = nullableAdd c.bike_in c.bike_out := by
  cases h1 : c.bike_in <;> cases h2 : c.bike_out <;>
    simp [bikeTotal, nullableAdd, h1, h2]

/-- Folding the aggregation step over a list of counts turns each
component of the map at key `k` into the fold of the running-sum update
over the contributions of the matching counts, seeded with the prior
map value at `k`. -/
theorem aggFold_spec (cs : List IndividualCount)
    (m : Int × NaiveDate → Option Int × Option Int × Option Int)
    (k : Int × NaiveDate) :
    (cs.foldl aggStep m) k =
      (List.foldl nullableAdd (m k).1
        ((cs.filter fun c => decide (countKey c = k)).map pedTotal),
       List.foldl nullableAdd (m k).2.1
        ((cs.filter fun c => decide (countKey c = k)).map bikeTotal),
       List.foldl nullableAdd (m k).2.2
        ((cs.filter fun c => decide (countKey c = k)).map IndividualCount.total)) := by
  induction cs generalizing m with
  | nil => simp
  | cons c cs ih =>
    rw [List.foldl_cons, ih]
    rcases eq_or_ne (countKey c) k with h | h
    · subst h
      simp [aggStep]
    · have hk : ¬(k = countKey c) := fun hk => h hk.symm
      simp [aggStep, hk, h]

/-- The aggregation map at a key is the triple of absent-absorbing sums of
the ped pairs, bike pairs, and verbatim totals of that group. -/
theorem dailyCounts_eq (cs : List IndividualCount) (loc : Int) (day : NaiveDate) :
    dailyCounts cs (loc, day) =
      (nullableSum ((dayRecords cs loc day).map pedTotal),
       nullableSum ((dayRecords cs loc day).map bikeTotal),
       nullableSum ((dayRecords cs loc day).map IndividualCount.total)) :=
  aggFold_spec cs (fun _ => (none, none, none)) (loc, day)

/-- Folding the running-sum update over all-present values from a present
seed is ordinary integer summation. -/
theorem foldl_nullableAdd_some (vs : List Int) (w : Int) :
    List.foldl nullableAdd (some w) (vs.map some) = some (w + vs.sum) := by
  induction vs generalizing w with
  | nil => simp [nullableAdd]
  | cons v vs ih => simp [List.foldl_cons, nullableAdd, ih, add_assoc]

/-- The absent-absorbing sum of a nonempty all-present list is the
ordinary sum. -/
theorem nullableSum_map_some (vs : List Int) (h : vs ≠ []) :
    nullableSum (vs.map some) = some vs.sum := by
  cases vs with
  | nil => exact absurd rfl h
  | cons v vs =>
    simp [nullableSum, List.foldl_cons, nullableAdd, foldl_nullableAdd_some]

/-- C1: for every run and every (location_id, date) pair among the decoded
records, the aggregator emits an AggregatedCount for that pair whose total
is the absent-absorbing sum of the verbatim `total` fields of the group (never
recomputed from ped/bike), whose total_ped and total_bike are the
absent-absorbing sums of the paired ped and bike contributions,
and whose total is the ordinary integer sum whenever every total in the
group is present. -/
theorem aggregates_are_daywise_nullable_sums
    (cs : List IndividualCount) (loc : Int) (day : NaiveDate)
    (hmem : ∃ c, c ∈ cs ∧ countKey c = (loc, day)) :
    ∃ a, a ∈ flattenedDailyCounts cs ∧ a.location_id = loc ∧ a.date = day ∧
      a.total = nullableSum ((dayRecords cs loc day).map IndividualCount.total) ∧
      a.total_ped = nullableSum ((dayRecords cs loc day).map pedTotal) ∧
      a.total_bike = nullableSum ((dayRecords cs loc day).map bikeTotal) ∧
      (∀ vs : List Int,
        (dayRecords cs loc day).map IndividualCount.total = vs.map some →
        vs ≠ [] → a.total = some vs.sum) := by
  obtain ⟨c, hc, hkey⟩ := hmem
  refine ⟨AggregatedCount.new loc day (dailyCounts cs (loc, day)).1
      (dailyCounts cs (loc, day)).2.1 (dailyCounts cs (loc, day)).2.2,
    ?_, rfl, rfl, ?_, ?_, ?_, ?_⟩
  · have hk : (loc, day) ∈ aggKeys cs := by
      unfold aggKeys
      rw [List.mem_dedup]
      exact List.mem_map.mpr ⟨c, hc, hkey⟩
    unfold flattenedDailyCounts
    exact List.mem_map.mpr ⟨(loc, day), hk, rfl⟩
  · rw [dailyCounts_eq]; rfl
  · rw [dailyCounts_eq]; rfl
  · rw [dailyCounts_eq]; rfl
  · intro vs hvs hne
    show (dailyCounts cs (loc, day)).2.2 = some vs.sum
    rw [dailyCounts_eq]
    show nullableSum ((dayRecords cs loc day).map IndividualCount.total) = _
    rw [hvs, nullableSum_map_some vs hne]

/-- Concrete instance of the C1 theorem: two readings of location 16 on
the same day aggregate to the absent-absorbing (here: ordinary) sums. -/
theorem aggregates_are_daywise_nullable_sums_witness :
    ∃ a, a ∈ flattenedDailyCounts [sampleCount, sampleCount2] ∧
      a.location_id = 16 ∧ a.date = sampleDate ∧
      a.total = nullableSum
        ((dayRecords [sampleCount, sampleCount2] 16 sampleDate).map
          IndividualCount.total) ∧
      a.total_ped = nullableSum
        ((dayRecords [sampleCount, sampleCount2] 16 sampleDate).map pedTotal) ∧
      a.total_bike = nullableSum
        ((dayRecords [sampleCount, sampleCount2] 16 sampleDate).map bikeTotal) ∧
      (∀ vs : List Int,
        (dayRecords [sampleCount, sampleCount2] 16 sampleDate).map
          IndividualCount.total = vs.map some →
        vs ≠ [] → a.total = some vs.sum) :=
  aggregates_are_daywise_nullable_sums [sampleCount, sampleCount2] 16 sampleDate
    ⟨sampleCount, by decide, by decide⟩

/-- C2: the absent-absorbing addition used uniformly by the aggregator —
for the in/out pairings and for the three running per-(location, date)
sums — satisfies absent+absent = absent, absent+x = x, x+absent = x, and
x+y = ordinary integer addition. -/
theorem nullableAdd_absorbing_spec :
    nullableAdd none none = none ∧
    (∀ x : Int, nullableAdd none (some x) = some x) ∧
    (∀ x : Int, nullableAdd (some x) none = some x) ∧
    (∀ x y : Int, nullableAdd (some x) (some y) = some (x + y)) ∧
    (∀ c : IndividualCount, pedTotal c = nullableAdd c.ped_in c.ped_out) ∧
    (∀ c : IndividualCount, bikeTotal c = nullableAdd c.bike_in c.bike_out) ∧
    (∀ (m : Int × NaiveDate → Option Int × Option Int × Option Int)
       (c : IndividualCount),
      aggStep m c (countKey c) =
        (nullableAdd (m (countKey c)).1 (pedTotal c),
         nullableAdd (m (countKey c)).2.1 (bikeTotal c),
         nullableAdd (m (countKey c)).2.2 c.total)) := by
  refine ⟨rfl, fun x => rfl, fun x => rfl, fun x y => rfl,
    pedTotal_eq_nullableAdd, bikeTotal_eq_nullableAdd, ?_⟩
  intro m c
  simp [aggStep]

/-- C3 counterexample: a 5-field slice with ped set and bike unset
succeeds, so the claim that a 5-field call succeeds only when both
capability flags are true (failing with TooMany otherwise) is false. -/
theorem five_field_single_flag_succeeds :
    ¬ (∀ (loc : Int) (dt : NaiveDateTime) (counts : List (Option Int))
         (ped bike : Bool),
        counts.length = 5 →
        (IndividualCount.new loc dt counts ped bike).isOk = true →
        ped = true ∧ bike = true) := by
  intro h
  have hx := h 16 sampleDT [some 1, some 2, some 3, some 4, some 5] true false
    rfl rfl
  exact Bool.false_ne_true hx.2

/-- C3 (amended): a 5-field slice succeeds exactly when at least one
capability flag is set, and fails with TooMany when both are unset; a
3-field slice succeeds exactly when the flags are not both set, and fails
with TooFew when both are set. -/
theorem layout_arity_flag_conditions
    (loc : Int) (dt : NaiveDateTime) (counts : List (Option Int))
    (ped bike : Bool) :
    (counts.length = 5 →
      (IndividualCount.new loc dt counts ped bike).isOk = (ped || bike) ∧
      (ped = false → bike = false →
        IndividualCount.new loc dt counts ped bike = .error .TooMany)) ∧
    (counts.length = 3 →
      (IndividualCount.new loc dt counts ped bike).isOk = (!(ped && bike)) ∧
      (ped = true → bike = true →
        IndividualCount.new loc dt counts ped bike = .error .TooFew)) := by
  rcases counts with _ | ⟨c0, _ | ⟨c1, _ | ⟨c2, _ | ⟨c3, _ | ⟨c4, _ | ⟨c5, rest⟩⟩⟩⟩⟩⟩ <;>
    constructor <;> intro hlen <;>
    first
    | (simp only [List.length_cons, List.length_nil] at hlen; exfalso; omega)
    | (cases ped <;> cases bike <;>
        simp_all [IndividualCount.new, Except.isOk, Except.toBool])

/-- Concrete instances of the amended C3 theorem at both arities. -/
theorem layout_arity_flag_conditions_witness :
    (IndividualCount.new 16 sampleDT [some 1, some 2, some 3, some 4, some 5]
      true false).isOk = (true || false) ∧
    IndividualCount.new 14 sampleDT [some 1, some 2, some 3] true true =
      .error .TooFew :=
  ⟨((layout_arity_flag_conditions 16 sampleDT
      [some 1, some 2, some 3, some 4, some 5] true false).1 rfl).1,
   ((layout_arity_flag_conditions 14 sampleDT
      [some 1, some 2, some 3] true true).2 rfl).2 rfl rfl⟩

/-- C4: a 5-field slice with both flags unset fails with TooMany, a
3-field slice with both flags set fails with TooFew, and any slice whose
length is neither 3 nor 5 fails with UnexpectedNumber, for all field
values. -/
theorem count_error_cases :
    (∀ (loc : Int) (dt : NaiveDateTime) (t a b c d : Option Int),
      IndividualCount.new loc dt [t, a, b, c, d] false false =
        .error .TooMany) ∧
    (∀ (loc : Int) (dt : NaiveDateTime) (t a b : Option Int),
      IndividualCount.new loc dt [t, a, b] true true = .error .TooFew) ∧
    (∀ (loc : Int) (dt : NaiveDateTime) (counts : List (Option Int))
       (ped bike : Bool),
      counts.length ≠ 3 → counts.length ≠ 5 →
      IndividualCount.new loc dt counts ped bike =
        .error .UnexpectedNumber) := by
  refine ⟨fun loc dt t a b c d => rfl, fun loc dt t a b => rfl, ?_⟩
  intro loc dt counts ped bike h3 h5
  rcases counts with _ | ⟨c0, _ | ⟨c1, _ | ⟨c2, _ | ⟨c3, _ | ⟨c4, _ | ⟨c5, rest⟩⟩⟩⟩⟩⟩
  · rfl
  · rfl
  · rfl
  · exact absurd rfl h3
  · rfl
  · exact absurd rfl h5
  · rfl

/-- Concrete instance of the arity clause of the C4 theorem. -/
theorem count_error_cases_witness :
    IndividualCount.new 16 sampleDT [some 1] true true =
      .error .UnexpectedNumber :=
  count_error_cases.2.2 16 sampleDT [some 1] true true (by decide) (by decide)

/-- C5: a file whose declared header row differs from EXPECTED_HEADER in
any field aborts the run with headerMismatch — for arbitrary data rows,
which are never examined — and every possible sink-call trace of such an
iteration is empty (zero deletes, inserts or commits). -/
theorem header_mismatch_aborts_before_data
    (parseTs : String → Option NaiveDateTime) (parseNum : String → Option Int)
    (metaRow header : List String) (dataRows : List (List String))
    (fileFound poolBuildOk checkoutOk : Bool)
    (hneq : header ≠ EXPECTED_HEADER) :
    processFile parseTs parseNum (metaRow :: header :: dataRows) =
      .error .headerMismatch ∧
    (∀ tr, possibleTrace
        (runIteration fileFound poolBuildOk checkoutOk parseTs parseNum
          (metaRow :: header :: dataRows)) tr →
      tr = []) := by
  have hpf : processFile parseTs parseNum (metaRow :: header :: dataRows) =
      .error .headerMismatch := by
    simp [processFile, hneq]
  refine ⟨hpf, fun tr htr => ?_⟩
  cases fileFound <;> simp [runIteration, hpf, possibleTrace] at htr <;> exact htr

/-- Concrete instance of the C5 theorem. -/
theorem header_mismatch_aborts_before_data_witness :
    processFile (fun _ => none) (fun _ => none) ([] :: [["bad"]]) =
      .error .headerMismatch :=
  (header_mismatch_aborts_before_data (fun _ => none) (fun _ => none)
    [] ["bad"] [] true true true (by decide)).1

/-- A successful entry decode yields exactly one count per layout entry. -/
theorem decodeEntries_length (es : List LayoutEntry) (dt : NaiveDateTime)
    (counts : List (Option Int)) (out : List IndividualCount)
    (h : decodeEntries es dt counts = .ok out) : out.length = es.length := by
  induction es generalizing out with
  | nil =>
    unfold decodeEntries at h
    injection h with h
    rw [← h]
    rfl
  | cons e rest ih =>
    unfold decodeEntries at h
    split at h
    · exact Except.noConfusion h
    · split at h
      · exact Except.noConfusion h
      · split at h
        · exact Except.noConfusion h
        · rename_i cs hrest
          injection h with h
          rw [← h, List.length_cons, List.length_cons, ih cs hrest]

/-- A successful row decode yields exactly one count per station. -/
theorem decodeRow_length (dt : NaiveDateTime) (counts : List (Option Int))
    (out : List IndividualCount) (h : decodeRow dt counts = .ok out) :
    out.length = stationLayout.length := by
  unfold decodeRow at h
  split at h
  · exact decodeEntries_length _ _ _ _ h
  · exact Except.noConfusion h

/-- A successful row loop yields one date per row and one count per
station per row. -/
theorem processRows_lengths (parseTs : String → Option NaiveDateTime)
    (parseNum : String → Option Int) (rows : List (List String))
    (dates : List NaiveDate) (cs : List IndividualCount)
    (h : processRows parseTs parseNum rows = .ok (dates, cs)) :
    cs.length = rows.length * stationLayout.length ∧
    dates.length = rows.length := by
  induction rows generalizing dates cs with
  | nil =>
    unfold processRows at h
    injection h with h
    have h1 : ([] : List NaiveDate) = dates := congrArg Prod.fst h
    have h2 : ([] : List IndividualCount) = cs := congrArg Prod.snd h
    rw [← h1, ← h2]
    simp
  | cons row rest ih =>
    cases hts : parseTs (row.headD "") with
    | none =>
      unfold processRows at h
      rw [hts] at h
      exact Except.noConfusion h
    | some dt =>
      unfold processRows at h
      rw [hts] at h
      dsimp only at h
      cases hrow : decodeRow dt (row.map parseNum) with
      | error e =>
        rw [hrow] at h
        exact Except.noConfusion h
      | ok rowCounts =>
        rw [hrow] at h
        dsimp only at h
        cases hrest : processRows parseTs parseNum rest with
        | error e =>
          rw [hrest] at h
          exact Except.noConfusion h
        | ok pr =>
          obtain ⟨ds, cs2⟩ := pr
          rw [hrest] at h
          dsimp only at h
          injection h with h
          have h1 : dt.date :: ds = dates := congrArg Prod.fst h
          have h2 : rowCounts ++ cs2 = cs := congrArg Prod.snd h
          have hprev := ih ds cs2 hrest
          have hrc := decodeRow_length dt (row.map parseNum) rowCounts hrow
          constructor
          · rw [← h2, List.length_append, hrc, hprev.1, List.length_cons,
              Nat.succ_mul, Nat.add_comm]
          · rw [← h1, List.length_cons, hprev.2, List.length_cons]

/-- C6: with a valid header, every successfully decoded data row produces
exactly one IndividualCount per station layout entry — twenty per row —
so a successful run decodes rows-times-entries records in total. -/
theorem decode_yields_one_count_per_entry
    (parseTs : String → Option NaiveDateTime) (parseNum : String → Option Int)
    (rows : List (List String)) (rd : RunData)
    (hok : processFile parseTs parseNum rows = .ok rd) :
    rd.allCounts.length = (rows.drop 2).length * stationLayout.length ∧
    (∀ (dt : NaiveDateTime) (counts : List (Option Int))
       (out : List IndividualCount),
      decodeRow dt counts = .ok out → out.length = stationLayout.length) ∧
    stationLayout.length = 20 := by
  refine ⟨?_, fun dt counts out h => decodeRow_length dt counts out h, rfl⟩
  unfold processFile at hok
  split at hok
  · exact Except.noConfusion hok
  · split at hok
    · rename_i hdr
      cases hrows : processRows parseTs parseNum (rows.drop 2) with
      | error e =>
        rw [hrows] at hok
        exact Except.noConfusion hok
      | ok pr =>
        obtain ⟨dates, cs⟩ := pr
        rw [hrows] at hok
        dsimp only at hok
        injection hok with hok
        rw [← hok]
        exact (processRows_lengths parseTs parseNum (rows.drop 2) dates cs
          hrows).1
    · exact Except.noConfusion hok

/-- A well-formed three-record sample file: metadata line, the expected
header, and one 98-field data row. -/
def sampleRows : List (List String) :=
  [[], EXPECTED_HEADER, "May 6, 2023 12:30 PM" :: List.replicate 97 ""]

/-- Concrete instance of the C6 theorem: one data row decodes to twenty
counts. -/
theorem decode_yields_one_count_per_entry_witness :
    ∃ rd, processFile (fun _ => some sampleDT) (fun _ => none) sampleRows =
        .ok rd ∧
      rd.allCounts.length = (sampleRows.drop 2).length * stationLayout.length := by
  have h : ∃ rd,
      processFile (fun _ => some sampleDT) (fun _ => none) sampleRows =
        .ok rd := by
    unfold processFile sampleRows
    rw [show ([[], EXPECTED_HEADER,
        "May 6, 2023 12:30 PM" :: List.replicate 97 ""] : List (List String))[1]? =
        some EXPECTED_HEADER from rfl]
    dsimp only
    rw [if_pos rfl]
    exact ⟨_, rfl⟩
  obtain ⟨rd, hrd⟩ := h
  exact ⟨rd, hrd,
    (decode_yields_one_count_per_entry (fun _ => some sampleDT) (fun _ => none)
      sampleRows rd hrd).1⟩

/-- An aggregated insert is an insert. -/
theorem isInsertCall_of_isAggInsert (x : SinkCall) (h : isAggInsert x = true) :
    isInsertCall x = true := by
  cases x <;> simp_all [isAggInsert, isInsertCall]

/-- Delete-phase calls are deletes and commits, never inserts. -/
theorem deletePhase_not_insert (dates : List NaiveDate) (x : SinkCall)
    (hx : x ∈ deletePhaseCalls dates) : isInsertCall x = false := by
  unfold deletePhaseCalls at hx
  rw [List.mem_flatMap] at hx
  obtain ⟨dte, _, hx⟩ := hx
  simp only [List.mem_cons, List.not_mem_nil, or_false] at hx
  rcases hx with rfl | rfl | rfl <;> rfl

/-- Individual-phase calls are individual inserts or commits. -/
theorem indPhase_class (cs : List IndividualCount) (x : SinkCall)
    (hx : x ∈ indPhaseCalls cs) :
    isDeleteCall x = false ∧ isAggInsert x = false := by
  unfold indPhaseCalls at hx
  rcases List.mem_append.mp hx with h | h
  · obtain ⟨c, _, rfl⟩ := List.mem_map.mp h
    exact ⟨rfl, rfl⟩
  · rw [List.eq_of_mem_replicate h]
    exact ⟨rfl, rfl⟩

/-- Aggregated-phase calls are aggregated inserts or commits. -/
theorem aggPhase_class (cs : List AggregatedCount) (x : SinkCall)
    (hx : x ∈ aggPhaseCalls cs) :
    isDeleteCall x = false ∧ isIndInsert x = false := by
  unfold aggPhaseCalls at hx
  rcases List.mem_append.mp hx with h | h
  · obtain ⟨c, _, rfl⟩ := List.mem_map.mp h
    exact ⟨rfl, rfl⟩
  · rw [List.eq_of_mem_replicate h]
    exact ⟨rfl, rfl⟩

/-- If two concatenations are equal, an element of the left list at a
position inside the first right-hand block is a member of that block. -/
theorem getElem_mem_left_block {α : Type} {l r p s : List α}
    (h : l ++ r = p ++ s) {k : Nat} (hk : k < l.length) (hkp : k < p.length) :
    l[k] ∈ p := by
  have h1 : (l ++ r)[k]? = l[k]? := List.getElem?_append_left hk
  rw [h, List.getElem?_append_left hkp, List.getElem?_eq_getElem hk,
    List.getElem?_eq_getElem hkp] at h1
  injection h1 with h1
  rw [← h1]
  exact List.getElem_mem hkp

/-- If two concatenations are equal, an element of the left list at a
position past the first right-hand block is a member of the second. -/
theorem getElem_mem_right_block {α : Type} {l r p s : List α}
    (h : l ++ r = p ++ s) {k : Nat} (hk : k < l.length) (hkp : p.length ≤ k) :
    l[k] ∈ s := by
  have h1 : (l ++ r)[k]? = l[k]? := List.getElem?_append_left hk
  rw [h, List.getElem?_append_right hkp, List.getElem?_eq_getElem hk] at h1
  exact List.getElem?_mem h1

/-- If two concatenations are equal and the first right-hand block is no
longer than the left list, that block starts the left list. -/
theorem take_of_append_eq {α : Type} {l r p s : List α}
    (h : l ++ r = p ++ s) (hlen : p.length ≤ l.length) :
    l.take p.length = p := by
  have h1 : (l ++ r).take p.length = l.take p.length :=
    List.take_append_of_le_length hlen
  rw [h, List.take_left] at h1
  exact h1.symm

/-- C7: in every run, under any thread interleaving the load coordinator
allows, every insert is preceded by the complete delete phase — all
deletes for all distinct dates together with their commits, a full
barrier — and every aggregated insert is additionally preceded by the
complete individual-insert phase; positionally, deletes always precede
inserts and individual inserts always precede aggregated inserts. -/
theorem load_phases_are_barriered (rd : RunData) (tr : List SinkCall)
    (htr : RunTrace rd tr) :
    (∀ (k : Nat) (hk : k < tr.length), isInsertCall tr[k] = true →
      ∃ n, n ≤ k ∧ (tr.take n).Perm (deletePhaseCalls rd.distinctDates)) ∧
    (∀ (k : Nat) (hk : k < tr.length), isAggInsert tr[k] = true →
      ∃ n, n ≤ k ∧ ∃ d i, tr.take n = d ++ i ∧
        d.Perm (deletePhaseCalls rd.distinctDates) ∧
        i.Perm (indPhaseCalls rd.allCounts)) ∧
    (∀ (j k : Nat) (hj : j < tr.length) (hk : k < tr.length),
      isDeleteCall tr[j] = true → isInsertCall tr[k] = true → j < k) ∧
    (∀ (j k : Nat) (hj : j < tr.length) (hk : k < tr.length),
      isIndInsert tr[j] = true → isAggInsert tr[k] = true → j < k) := by
  obtain ⟨d, i, a, rest, hd, hi, ha, heq⟩ := htr
  have heqA : tr ++ rest = d ++ (i ++ a) := by
    rw [heq]
    exact List.append_assoc d i a
  have heqB : tr ++ rest = (d ++ i) ++ a := heq
  have hdx : ∀ x ∈ d, isInsertCall x = false :=
    fun x hx => deletePhase_not_insert _ x (hd.mem_iff.mp hx)
  have hix : ∀ x ∈ i, isDeleteCall x = false ∧ isAggInsert x = false :=
    fun x hx => indPhase_class _ x (hi.mem_iff.mp hx)
  have hax : ∀ x ∈ a, isDeleteCall x = false ∧ isIndInsert x = false :=
    fun x hx => aggPhase_class _ x (ha.mem_iff.mp hx)
  have hins_ge : ∀ (k : Nat) (hk : k < tr.length),
      isInsertCall tr[k] = true → d.length ≤ k := by
    intro k hk hins
    by_contra hlt
    push_neg at hlt
    have hmem := getElem_mem_left_block heqA hk hlt
    rw [hdx _ hmem] at hins
    exact Bool.false_ne_true hins
  have hagg_ge : ∀ (k : Nat) (hk : k < tr.length),
      isAggInsert tr[k] = true → d.length + i.length ≤ k := by
    intro k hk hagg
    by_contra hlt
    push_neg at hlt
    have hlt2 : k < (d ++ i).length := by
      rw [List.length_append]; omega
    have hmem := getElem_mem_left_block heqB hk hlt2
    rcases List.mem_append.mp hmem with hm | hm
    · have h2 := isInsertCall_of_isAggInsert _ hagg
      rw [hdx _ hm] at h2
      exact Bool.false_ne_true h2
    · have h2 := (hix _ hm).2
      rw [hagg] at h2
      exact Bool.noConfusion h2
  have hdel_lt : ∀ (j : Nat) (hj : j < tr.length),
      isDeleteCall tr[j] = true → j < d.length := by
    intro j hj hdel
    by_contra hge
    push_neg at hge
    have hmem := getElem_mem_right_block heqA hj hge
    rcases List.mem_append.mp hmem with hm | hm
    · have h2 := (hix _ hm).1
      rw [hdel] at h2
      exact Bool.noConfusion h2
    · have h2 := (hax _ hm).1
      rw [hdel] at h2
      exact Bool.noConfusion h2
  have hind_lt : ∀ (j : Nat) (hj : j < tr.length),
      isIndInsert tr[j] = true → j < d.length + i.length := by
    intro j hj hind
    by_contra hge
    push_neg at hge
    have hge2 : (d ++ i).length ≤ j := by
      rw [List.length_append]; omega
    have hmem := getElem_mem_right_block heqB hj hge2
    have h2 := (hax _ hmem).2
    rw [hind] at h2
    exact Bool.noConfusion h2
  refine ⟨?_, ?_, ?_, ?_⟩
  · intro k hk hins
    have hge := hins_ge k hk hins
    refine ⟨d.length, hge, ?_⟩
    rw [take_of_append_eq heqA (by omega)]
    exact hd
  · intro k hk hagg
    have hge := hagg_ge k hk hagg
    refine ⟨d.length + i.length, hge, d, i, ?_, hd, hi⟩
    have hlen : (d ++ i).length ≤ tr.length := by
      rw [List.length_append]; omega
    have ht := take_of_append_eq heqB hlen
    rw [List.length_append] at ht
    exact ht
  · intro j k hj hk hdel hins
    have h1 := hdel_lt j hj hdel
    have h2 := hins_ge k hk hins
    omega
  · intro j k hj hk hind hagg
    have h1 := hind_lt j hj hind
    have h2 := hagg_ge k hk hagg
    omega

/-- The daily rollup of the end-to-end sample reading. -/
def sampleAgg : AggregatedCount := ⟨16, sampleDate, some 5, some 5, some 10⟩

/-- A one-date, one-count, one-aggregate run handed to the load
coordinator. -/
def sampleRunData : RunData := ⟨[sampleDate], [sampleCount], [sampleAgg]⟩

/-- The canonical (unpermuted, complete) trace of that run. -/
def sampleTrace : List SinkCall :=
  deletePhaseCalls [sampleDate] ++ indPhaseCalls [sampleCount] ++
    aggPhaseCalls [sampleAgg]

/-- Concrete instance of the C7 theorem: the individual insert at
position 3 of the canonical one-date trace is preceded by the complete
delete phase. -/
theorem load_phases_are_barriered_witness :
    ∃ n, n ≤ 3 ∧ (sampleTrace.take n).Perm (deletePhaseCalls [sampleDate]) := by
  have hrt : RunTrace sampleRunData sampleTrace :=
    ⟨deletePhaseCalls [sampleDate], indPhaseCalls [sampleCount],
     aggPhaseCalls [sampleAgg], [], List.Perm.refl _, List.Perm.refl _,
     List.Perm.refl _, by simp [sampleTrace]⟩
  exact (load_phases_are_barriered sampleRunData sampleTrace hrt).1 3
    (by decide) (by decide)

/-- C8 counterexample: the data rows have EXPECTED_HEADER.length = 98
columns, and column 97 — the trailing empty-header field — follows
column 0 but is read by no station slice, so the slices do not cover
every column after the timestamp column. -/
theorem trailing_column_uncovered :
    ¬ (∀ j : Nat, 0 < j → j < EXPECTED_HEADER.length → j ∈ coveredColumns) := by
  intro h
  exact absurd (h 97 (by decide) (by decide)) (by decide)

/-- C8 (amended): the twenty station slices, in order, read exactly
columns 1 through 96 — pairwise disjoint, contiguous and gap-free — i.e.
they partition all columns strictly between the timestamp column 0 and
the trailing empty-header column 97. -/
theorem station_slices_partition_inner_columns :
    coveredColumns = List.range' 1 96 ∧ EXPECTED_HEADER.length = 98 := by
  constructor <;> rfl

/-- Evaluation of the pipeline on a minimal well-formed file with the
expected header and no data rows. -/
theorem processFile_headerOnly :
    processFile (fun _ => some sampleDT) (fun _ => none)
      [[], EXPECTED_HEADER] = .ok ⟨[], [], []⟩ := by
  unfold processFile
  rw [show ([[], EXPECTED_HEADER] : List (List String))[1]? =
      some EXPECTED_HEADER from rfl]
  dsimp only
  rw [if_pos rfl]
  rfl

/-- C9 counterexample: with a well-formed file present and pool
construction failing, the iteration ends in poolFailure and the process
does not exit — refuting the claim that it terminates whenever
construction of the connection pool fails (main.rs lines 683-687 log,
remove the CSV and continue the loop). -/
theorem pool_failure_continues_polling :
    runIteration true false true (fun _ => some sampleDT) (fun _ => none)
      [[], EXPECTED_HEADER] = .poolFailure ∧
    iterExits .poolFailure = false := by
  constructor
  · simp [runIteration, processFile_headerOnly]
  · rfl

/-- C9 (amended): startup returns exactly when the USERNAME or PASSWORD
variable is missing; failure to build the connection pool never exits —
it aborts the run and keeps polling — and the only iteration outcome
that exits the process is the main-thread panic on a failed connection
checkout (`pool.get().unwrap()`) while spawning load-phase workers. -/
theorem process_exit_behaviour :
    (∀ (fileFound checkoutOk : Bool)
       (parseTs : String → Option NaiveDateTime)
       (parseNum : String → Option Int) (rows : List (List String)),
      iterExits (runIteration fileFound false checkoutOk parseTs parseNum
        rows) = false) ∧
    (∀ (fileFound poolBuildOk checkoutOk : Bool)
       (parseTs : String → Option NaiveDateTime)
       (parseNum : String → Option Int) (rows : List (List String)),
      iterExits (runIteration fileFound poolBuildOk checkoutOk parseTs
        parseNum rows) = true →
      ∃ rd, runIteration fileFound poolBuildOk checkoutOk parseTs parseNum
        rows = .checkoutPanic rd) ∧
    (∀ username password : Option String,
      startupReturnsEarly username password =
        (username.isNone || password.isNone)) := by
  refine ⟨?_, ?_, ?_⟩
  · intro fileFound checkoutOk parseTs parseNum rows
    cases fileFound with
    | false => rfl
    | true =>
      cases hp : processFile parseTs parseNum rows with
      | error e => simp [runIteration, hp, iterExits]
      | ok rd => simp [runIteration, hp, iterExits]
  · intro fileFound poolBuildOk checkoutOk parseTs parseNum rows hexit
    cases hr : runIteration fileFound poolBuildOk checkoutOk parseTs
        parseNum rows with
    | skippedNoFile =>
      rw [hr] at hexit
      exact Bool.noConfusion hexit
    | abortedBeforeLoad e =>
      rw [hr] at hexit
      exact Bool.noConfusion hexit
    | poolFailure =>
      rw [hr] at hexit
      exact Bool.noConfusion hexit
    | checkoutPanic rd => exact ⟨rd, rfl⟩
    | loadPhase rd =>
      rw [hr] at hexit
      exact Bool.noConfusion hexit
  · intro u p
    cases u <;> cases p <;> rfl

/-- Concrete instance of the amended C9 theorem: an exiting iteration —
here a checkout failure after a successful pool build on a well-formed
file — exits through the checkoutPanic outcome. -/
theorem process_exit_behaviour_witness :
    ∃ rd, runIteration true true false (fun _ => some sampleDT)
      (fun _ => none) [[], EXPECTED_HEADER] = .checkoutPanic rd := by
  have h1 : runIteration true true false (fun _ => some sampleDT)
      (fun _ => none) [[], EXPECTED_HEADER] = .checkoutPanic ⟨[], [], []⟩ := by
    simp [runIteration, processFile_headerOnly]
  exact process_exit_behaviour.2.1 true true false (fun _ => some sampleDT)
    (fun _ => none) [[], EXPECTED_HEADER] (by simp [h1, iterExits])

/-- All station slices stay within the first 97 columns. -/
theorem stationLayout_bounds :
    ∀ e ∈ stationLayout, 1 ≤ e.start ∧ e.start + e.span ≤ 97 := by
  decide

/-- Entry decoding never trips the out-of-bounds slice case as long as
every slice of every entry fits in the row. -/
theorem decodeEntries_no_oob (es : List LayoutEntry) (dt : NaiveDateTime)
    (counts : List (Option Int))
    (hes : ∀ e ∈ es, e.start + e.span ≤ counts.length) :
    decodeEntries es dt counts ≠ .error .outOfBounds := by
  induction es with
  | nil =>
    unfold decodeEntries
    exact fun h => Except.noConfusion h
  | cons e rest ih =>
    unfold decodeEntries
    have hb : e.start + e.span ≤ counts.length :=
      hes e (List.mem_cons_self e rest)
    have hs : sliceRange counts e.start e.span =
        some ((counts.drop e.start).take e.span) := by
      unfold sliceRange
      rw [if_pos hb]
    rw [hs]
    dsimp only
    have ihr := ih fun e2 he2 => hes e2 (List.mem_cons_of_mem e he2)
    cases hn : IndividualCount.new e.locationId dt
        ((counts.drop e.start).take e.span) e.ped e.bike with
    | error ce =>
      dsimp only
      intro h
      injection h with h
      exact RowError.noConfusion h
    | ok c =>
      dsimp only
      cases hr : decodeEntries rest dt counts with
      | error err =>
        dsimp only
        intro h
        injection h with h
        rw [hr] at ihr
        apply ihr
        rw [h]
      | ok cs =>
        dsimp only
        intro h
        exact Except.noConfusion h

/-- C10: a data row whose field count differs from the 98-field expected
header aborts with a length-mismatch error before any IndividualCount is
created, and with exactly 98 fields every station slice (columns 1-96) is
in bounds, so decoding never reaches the out-of-bounds (panic) case. -/
theorem row_length_guard_protects_slices :
    (∀ (dt : NaiveDateTime) (counts : List (Option Int)),
      counts.length ≠ EXPECTED_HEADER.length →
      decodeRow dt counts = .error (.lengthMismatch counts.length)) ∧
    (∀ (dt : NaiveDateTime) (counts : List (Option Int)),
      decodeRow dt counts ≠ .error .outOfBounds) ∧
    EXPECTED_HEADER.length = 98 := by
  refine ⟨?_, ?_, rfl⟩
  · intro dt counts h
    unfold decodeRow
    rw [if_neg h]
  · intro dt counts
    unfold decodeRow
    split
    · rename_i hlen
      apply decodeEntries_no_oob
      intro e he
      have hb := (stationLayout_bounds e he).2
      have h98 : EXPECTED_HEADER.length = 98 := rfl
      rw [hlen, h98]
      omega
    · intro h
      injection h with h
      exact RowError.noConfusion h

/-- Concrete instance of the C10 theorem: an empty row aborts with the
length mismatch recorded. -/
theorem row_length_guard_protects_slices_witness :
    decodeRow sampleDT [] = .error (.lengthMismatch 0) :=
  row_length_guard_protects_slices.1 sampleDT [] (by decide)
